import Mathlib

/-!
Verification development for the secure streaming gateway of the Video-Dep
repository (Express backend: `backend/server.js` and
`backend/middleware/blockIDM.js`).

Strings are embedded as their UTF-8 byte sequences (`List Nat`, each entry a
byte value).  All JavaScript string operations used by the gateway
(`trim`, `startsWith`, `includes`, `toLowerCase` on ASCII data, `split('\n')`,
`join('\n')`, `substring`/`lastIndexOf`, `encodeURIComponent`,
`decodeURIComponent`) are modelled at this byte level, which coincides with
JavaScript's code-unit semantics on the ASCII-delimited operations the code
performs.
-/

/-- A string, viewed as its UTF-8 byte sequence. -/
abbrev Bytes := List Nat

/-- Byte sequence of an ASCII string literal (code point = UTF-8 byte). -/
def byteStr (s : String) : Bytes := s.toList.map Char.toNat

/-- ASCII whitespace bytes removed by JavaScript's `String.prototype.trim`
(space, tab, newline, carriage return, vertical tab, form feed). -/
def isWs (b : Nat) : Bool := b = 32 || b = 9 || b = 10 || b = 13 || b = 11 || b = 12

/-- Remove trailing whitespace bytes. -/
def trimTrail : Bytes → Bytes
  | [] => []
  | b :: rest =>
    match trimTrail rest with
    | [] => if isWs b then [] else [b]
    | r => b :: r

/-- JavaScript `s.trim()`: strip leading and trailing whitespace. -/
def trimB (l : Bytes) : Bytes := trimTrail (l.dropWhile isWs)

/-- Boolean test that `p` is a prefix of the second argument. -/
def isPrefixB : Bytes → Bytes → Bool
  | [], _ => true
  | _ :: _, [] => false
  | p :: ps, b :: bs => p == b && isPrefixB ps bs

/-- JavaScript `l.startsWith(p)`. -/
def startsWithB (l p : Bytes) : Bool := isPrefixB p l

/-- Boolean test that `sub` occurs contiguously inside the second argument. -/
def containsSub (sub : Bytes) : Bytes → Bool
  | [] => isPrefixB sub []
  | b :: bs => isPrefixB sub (b :: bs) || containsSub sub bs

/-- JavaScript `l.includes(sub)`. -/
def includesB (l sub : Bytes) : Bool := containsSub sub l

/-- JavaScript `s.endsWith(p)` (used only to state the spec's suffix claim). -/
def endsWithB (l p : Bytes) : Bool := isPrefixB p.reverse l.reverse

/-- JavaScript `s.toLowerCase()` on ASCII bytes. -/
def toLowerB (l : Bytes) : Bytes := l.map (fun b => if 65 ≤ b && b ≤ 90 then b + 32 else b)

/-- JavaScript `s.split('\n')`. -/
def splitNl : Bytes → List Bytes
  | [] => [[]]
  | b :: rest =>
    if b = 10 then [] :: splitNl rest
    else
      match splitNl rest with
      | [] => [[b]]
      | x :: xs => (b :: x) :: xs

/-- JavaScript `lines.join('\n')`. -/
def joinNl : List Bytes → Bytes
  | [] => []
  | [l] => l
  | l :: ls => l ++ 10 :: joinNl ls

/-! ### Percent-coding (`encodeURIComponent` / `decodeURIComponent`) -/

/-- Bytes `encodeURIComponent` leaves untouched: ASCII alphanumerics and
`- _ . ! ~ * ' ( )`. -/
def isUnreserved (b : Nat) : Bool :=
  (48 ≤ b && b ≤ 57) || (65 ≤ b && b ≤ 90) || (97 ≤ b && b ≤ 122) ||
  b = 45 || b = 95 || b = 46 || b = 33 || b = 126 || b = 42 || b = 39 || b = 40 || b = 41

/-- Uppercase hex digit byte for a value `< 16`. -/
def hexDigB (d : Nat) : Nat := if d < 10 then 48 + d else 55 + d

/-- Is the byte an ASCII hex digit? -/
def isHexB (b : Nat) : Bool :=
  (48 ≤ b && b ≤ 57) || (65 ≤ b && b ≤ 70) || (97 ≤ b && b ≤ 102)

/-- Value of an ASCII hex digit byte. -/
def hexValB (b : Nat) : Nat := if b ≤ 57 then b - 48 else if b ≤ 70 then b - 55 else b - 87

/-- JavaScript `encodeURIComponent` at the UTF-8 byte level: unreserved bytes
pass through, every other byte becomes `%XX` (uppercase hex). -/
def encodeURIComponent (s : Bytes) : Bytes :=
  s.flatMap (fun b => if isUnreserved b then [b] else [37, hexDigB (b / 16), hexDigB (b % 16)])

/-- JavaScript `decodeURIComponent` at the byte level: `%XX` becomes the byte
`XX`, other bytes pass through; a malformed `%` escape throws a `URIError`,
modelled as `none`. -/
def decodeURIComponent : Bytes → Option Bytes
  | [] => some []
  | b :: rest =>
    if b = 37 then
      match rest with
      | h :: l :: rest2 =>
        if isHexB h && isHexB l then
          (decodeURIComponent rest2).map (fun d => (16 * hexValB h + hexValB l) :: d)
        else none
      | _ => none
    else (decodeURIComponent rest).map (fun d => b :: d)

theorem decode_cons_ne (b : Nat) (hb : b ≠ 37) (t : Bytes) :
    decodeURIComponent (b :: t) = (decodeURIComponent t).map (fun d => b :: d) := by
  rw [decodeURIComponent.eq_def]
  simp [hb]

theorem decode_pct (h l : Nat) (hh : isHexB h = true) (hl : isHexB l = true) (t : Bytes) :
    decodeURIComponent (37 :: h :: l :: t) =
      (decodeURIComponent t).map (fun d => (16 * hexValB h + hexValB l) :: d) := by
  rw [decodeURIComponent.eq_def]
  simp [hh, hl]

theorem hexDigB_isHex : ∀ d, d < 16 → isHexB (hexDigB d) = true := by decide

theorem hexValB_hexDigB : ∀ d, d < 16 → hexValB (hexDigB d) = d := by decide

theorem isUnreserved_ne_37 {b : Nat} (h : isUnreserved b = true) : b ≠ 37 := by
  intro e
  subst e
  exact absurd h (by decide)

/-- Decoding inverts encoding on byte strings. -/
theorem decode_encode (s : Bytes) (h : ∀ b ∈ s, b < 256) :
    decodeURIComponent (encodeURIComponent s) = some s := by
  induction s with
  | nil => rfl
  | cons b rest ih =>
    have hb : b < 256 := h b (List.mem_cons_self b rest)
    have hrest : ∀ x ∈ rest, x < 256 := fun x hx => h x (List.mem_cons_of_mem b hx)
    by_cases hu : isUnreserved b = true
    · have hb37 : b ≠ 37 := isUnreserved_ne_37 hu
      simp only [encodeURIComponent, List.flatMap_cons, hu, if_true, List.singleton_append]
      simp only [encodeURIComponent] at ih
      rw [decode_cons_ne b hb37, ih hrest]
      rfl
    · have hdiv : b / 16 < 16 := by omega
      have hmod : b % 16 < 16 := Nat.mod_lt b (by omega)
      simp only [encodeURIComponent, List.flatMap_cons, hu, if_false, Bool.false_eq_true,
        List.cons_append, List.nil_append]
      simp only [encodeURIComponent] at ih
      rw [decode_pct _ _ (hexDigB_isHex _ hdiv) (hexDigB_isHex _ hmod), ih hrest]
      have : 16 * hexValB (hexDigB (b / 16)) + hexValB (hexDigB (b % 16)) = b := by
        rw [hexValB_hexDigB _ hdiv, hexValB_hexDigB _ hmod]
        omega
      rw [this]
      rfl

/-! ### Shape of `trim` on lines with a non-whitespace head -/

theorem trimTrail_cons (b : Nat) (l : Bytes) :
    trimTrail (b :: l) =
      (match trimTrail l with
       | [] => if isWs b then [] else [b]
       | r => b :: r) := rfl

/-- Trimming a byte string whose head is not whitespace keeps that head. -/
theorem trimB_cons_shape (b : Nat) (hb : isWs b = false) (l : Bytes) :
    ∃ t, trimB (b :: l) = b :: t := by
  unfold trimB
  rw [List.dropWhile_cons_of_neg (by simp [hb]), trimTrail_cons]
  cases h : trimTrail l with
  | nil => exact ⟨[], by simp [hb]⟩
  | cons c cs => exact ⟨c :: cs, by simp⟩

/-! ### The gateway's data model (`backend/server.js`, `backend/middleware/blockIDM.js`) -/

/-- The class of denial produced by the gateway: which check rejected the
request (the spec's "reason code"). `missingTokenOrUrl` is the deny issued by
the `/api/stream` route handler when the `token` or `url` query parameter is
absent or empty — it is the code's counterpart of the spec's "session" check. -/
inductive Reason where
  | agent
  | referer
  | method
  | fetchDest
  | missingTokenOrUrl
deriving DecidableEq

/-- A denial decision: HTTP status plus reason code. -/
structure Denial where
  status : Nat
  reason : Reason
deriving DecidableEq

/-- An inbound HTTP request as seen by the Express layer.  Header and query
values are byte strings; `none` models an absent header/parameter.  `protocol`
and `host` are what `req.protocol` and `req.get('host')` return. -/
structure Request where
  method : Bytes
  userAgent : Option Bytes
  referer : Option Bytes
  secFetchDest : Option Bytes
  range : Option Bytes
  token : Option Bytes
  url : Option Bytes
  protocol : Bytes
  host : Bytes

/-- The `blockedAgents` denylist of `blockIDM.js`. -/
def blockedAgents : List Bytes :=
  [byteStr "IDM", byteStr "Internet Download Manager", byteStr "JDownloader",
   byteStr "curl", byteStr "Wget", byteStr "Aria2", byteStr "Go-http-client",
   byteStr "Python-urllib", byteStr "FDM", byteStr "EagleGet",
   byteStr "Free Download Manager", byteStr "DownloadAccelerator",
   byteStr "PostmanRuntime"]

/-- The check `blockedAgents.some(agent => userAgent.toLowerCase().includes(agent.toLowerCase()))`. -/
def isBlockedAgent (ua : Bytes) : Bool :=
  blockedAgents.any (fun agent => includesB (toLowerB ua) (toLowerB agent))

/-- The `validDestinations` list of the Sec-Fetch-Dest check in `blockIDM.js`. -/
def validDestinations : List Bytes :=
  [byteStr "video", byteStr "audio", byteStr "empty", byteStr "object"]

/-- The `blockIDM` middleware: `some d` models an early denial response,
`none` models `next()` (the request continues to the route handler). -/
def blockIDM (r : Request) : Option Denial :=
  let userAgent := r.userAgent.getD []
  let referer := r.referer.getD []
  if isBlockedAgent userAgent then some ⟨403, Reason.agent⟩
  else if referer = [] then some ⟨403, Reason.referer⟩
  else if r.method = byteStr "HEAD" then some ⟨405, Reason.method⟩
  else
    let secFetchDest := r.secFetchDest.getD []
    if secFetchDest ≠ [] then
      if secFetchDest ∈ validDestinations then none else some ⟨403, Reason.fetchDest⟩
    else none

/-! ### The `/api/stream` route handler -/

/-- Headers the proxy sends on an upstream fetch (`axios({url, headers})`). -/
structure FetchArgs where
  url : Bytes
  range : Option Bytes
  userAgent : Option Bytes
deriving DecidableEq

/-- An upstream origin's response to a fetch. -/
structure UpstreamResponse where
  status : Nat
  contentType : Option Bytes
  contentLength : Option Bytes
  contentRange : Option Bytes
  acceptRanges : Option Bytes
  body : Bytes

/-- The gateway's response to the client.  `reason` tags denial responses;
JSON error bodies are elided (`body = none` on denials). -/
structure SResponse where
  status : Nat
  reason : Option Reason
  contentType : Option Bytes
  contentLength : Option Bytes
  contentRange : Option Bytes
  acceptRanges : Option Bytes
  body : Option Bytes

/-- A denial response. -/
def mkDeny (status : Nat) (reason : Reason) : SResponse :=
  ⟨status, some reason, none, none, none, none, none⟩

/-- The 500 response of the handler's `catch` branch (`'Stream Proxy Failed'`). -/
def proxyFailed : SResponse :=
  ⟨500, none, none, none, none, none, some (byteStr "Stream Proxy Failed")⟩

/-- For `upstreamUrl.substring(0, upstreamUrl.lastIndexOf('/') + 1)`:
the index one past the last `/`, or `0` when there is none. -/
def lastSlashEnd : Bytes → Nat
  | [] => 0
  | b :: rest =>
    let r := lastSlashEnd rest
    if r = 0 then (if b = 47 then 1 else 0) else r + 1

/-- The playlist's own base path (`baseUrl` in `server.js`). -/
def baseUrl (upstreamUrl : Bytes) : Bytes := upstreamUrl.take (lastSlashEnd upstreamUrl)

/-- One line of the manifest rewrite in `server.js`: a non-blank line that does
not start with `#` is resolved to an absolute URL (if relative) and replaced by
a gateway URL carrying the token and the URL-encoded absolute URL; every other
line is returned as-is. -/
def rewriteLine (protocol host token base line : Bytes) : Bytes :=
  if trimB line ≠ [] ∧ startsWithB (trimB line) (byteStr "#") = false then
    let absoluteSegmentUrl := if startsWithB line (byteStr "http") then line else base ++ line
    protocol ++ byteStr "://" ++ host ++ byteStr "/api/stream?token=" ++ token ++
      byteStr "&url=" ++ encodeURIComponent absoluteSegmentUrl
  else line

/-- The rewrite `originalManifest.split('\n').map(rewrite).join('\n')`. -/
def rewriteManifest (protocol host token upstreamUrl text : Bytes) : Bytes :=
  joinNl ((splitNl text).map (rewriteLine protocol host token (baseUrl upstreamUrl)))

/-- The browser `User-Agent` the proxy impersonates when contacting upstream. -/
def browserUA : Bytes :=
  byteStr "Mozilla/5.0 (Windows NT 10.0; Win64; x64) AppleWebKit/537.36 (KHTML, like Gecko) Chrome/91.0.4472.124 Safari/537.36"

/-- The body of the `/api/stream` handler's `try` block, after
`decodeURIComponent`: fetch the manifest and rewrite it when the decoded
upstream URL contains `.m3u8`, otherwise proxy the file forwarding the Range
header; `none` models the `decodeURIComponent` throw (caught by Express's
default error handler as a 500, no upstream fetch). -/
def handleUrl (up : FetchArgs → UpstreamResponse) (r : Request) (token : Bytes) :
    Option Bytes → SResponse × List FetchArgs
  | none => (⟨500, none, none, none, none, none, none⟩, [])
  | some upstreamUrl =>
    if includesB upstreamUrl (byteStr ".m3u8") then
      let args : FetchArgs := ⟨upstreamUrl, none, none⟩
      let resp := up args
      if 200 ≤ resp.status ∧ resp.status < 300 then
        (⟨200, none, some (byteStr "application/vnd.apple.mpegurl"), none, none, none,
          some (rewriteManifest r.protocol r.host token upstreamUrl resp.body)⟩, [args])
      else (proxyFailed, [args])
    else
      let args : FetchArgs := ⟨upstreamUrl, r.range, some browserUA⟩
      let resp := up args
      if 200 ≤ resp.status ∧ resp.status < 300 then
        (⟨resp.status, none, resp.contentType, resp.contentLength, resp.contentRange,
          resp.acceptRanges, some resp.body⟩, [args])
      else (proxyFailed, [args])

/-- The `/api/stream` route handler.  `up` is the upstream origin, as a
function from fetch arguments to the upstream response; the second component
of the result is the list of upstream fetches the handler performed. -/
def streamRoute (up : FetchArgs → UpstreamResponse) (r : Request) :
    SResponse × List FetchArgs :=
  let token := r.token.getD []
  let url := r.url.getD []
  if token = [] ∨ url = [] then (mkDeny 403 Reason.missingTokenOrUrl, [])
  else handleUrl up r token (decodeURIComponent url)

/-- The full `/api/stream` endpoint: `app.use('/api/stream', blockIDM)`
followed by `app.get('/api/stream', handler)`.  A non-GET request that passes
the middleware falls through to Express's default 404. -/
def handleStream (up : FetchArgs → UpstreamResponse) (r : Request) :
    SResponse × List FetchArgs :=
  match blockIDM r with
  | some d => (⟨d.status, some d.reason, none, none, none, none, none⟩, [])
  | none =>
    if r.method = byteStr "GET" then streamRoute up r
    else (⟨404, none, none, none, none, none, none⟩, [])

/-! ### Helper lemmas about the middleware -/

/-- Every middleware denial is a 403, except the HEAD-method denial (405). -/
theorem blockIDM_cases (r : Request) (d : Denial) (h : blockIDM r = some d) :
    d.status = 403 ∨ (d.status = 405 ∧ r.method = byteStr "HEAD") := by
  simp only [blockIDM] at h
  split at h
  · cases h
    exact Or.inl rfl
  · split at h
    · cases h
      exact Or.inl rfl
    · split at h
      · rename_i hmeth
        cases h
        exact Or.inr ⟨rfl, hmeth⟩
      · split at h
        · split at h
          · cases h
          · cases h
            exact Or.inl rfl
        · cases h

/-- A request with a clean user agent, a present referer, a non-HEAD method and
an acceptable (or absent) Sec-Fetch-Dest passes the middleware. -/
theorem blockIDM_pass (r : Request)
    (hua : isBlockedAgent (r.userAgent.getD []) = false)
    (href : r.referer.getD [] ≠ [])
    (hm : r.method ≠ byteStr "HEAD")
    (hsfd : r.secFetchDest.getD [] = [] ∨ r.secFetchDest.getD [] ∈ validDestinations) :
    blockIDM r = none := by
  simp only [blockIDM, hua, Bool.false_eq_true, if_false, href, hm, if_neg]
  rcases hsfd with h | h <;> simp [h]

/-- A request whose token query parameter is absent or empty is denied by the
route handler without any upstream fetch. -/
theorem streamRoute_no_token (up : FetchArgs → UpstreamResponse) (r : Request)
    (ht : r.token.getD [] = []) :
    streamRoute up r = (mkDeny 403 Reason.missingTokenOrUrl, []) := by
  simp [streamRoute, ht]

/-- C1: for every GET request to `/api/stream` lacking a token credential, the
response status is 403 — whatever the other headers are and whatever the
upstream would answer — no upstream fetch is performed, and no body (hence no
media bytes) is sent. -/
theorem stream_missing_credential_403 (up : FetchArgs → UpstreamResponse) (r : Request)
    (hm : r.method = byteStr "GET") (ht : r.token.getD [] = []) :
    (handleStream up r).1.status = 403 ∧ (handleStream up r).2 = [] ∧
    (handleStream up r).1.body = none := by
  rcases hb : blockIDM r with _ | d
  · simp only [handleStream, hb, hm, if_pos rfl, streamRoute_no_token up r ht]
    exact ⟨rfl, rfl, rfl⟩
  · rcases blockIDM_cases r d hb with h403 | ⟨_, hhead⟩
    · simp [handleStream, hb, h403]
    · rw [hm] at hhead
      exact absurd hhead (by decide)

/-- An upstream origin used by witnesses: always 200 with an empty body. -/
def upZero : FetchArgs → UpstreamResponse := fun _ => ⟨200, none, none, none, none, []⟩

/-- A clean GET request (browser user agent, local referer) with no token. -/
def reqMissingToken : Request :=
  ⟨byteStr "GET", some (byteStr "Mozilla/5.0"), some (byteStr "http://localhost:5173/"),
   none, none, none, some (byteStr "http://media.example/x.m3u8"),
   byteStr "http", byteStr "localhost:3000"⟩

theorem stream_missing_credential_403_witness :
    reqMissingToken.method = byteStr "GET" ∧ reqMissingToken.token.getD [] = [] ∧
    ((handleStream upZero reqMissingToken).1.status = 403 ∧
     (handleStream upZero reqMissingToken).2 = [] ∧
     (handleStream upZero reqMissingToken).1.body = none) :=
  ⟨rfl, rfl, stream_missing_credential_403 upZero reqMissingToken rfl rfl⟩

/-- C4: a request whose User-Agent contains (case-insensitively) any entry of
the fixed denylist is denied 403 with the agent reason, regardless of
everything else in the request — in particular even with a token present. -/
theorem stream_denylisted_agent_403 (up : FetchArgs → UpstreamResponse) (r : Request)
    (a : Bytes) (ha : a ∈ blockedAgents)
    (hmatch : includesB (toLowerB (r.userAgent.getD [])) (toLowerB a) = true) :
    (handleStream up r).1.status = 403 ∧
    (handleStream up r).1.reason = some Reason.agent ∧ (handleStream up r).2 = [] := by
  have hblocked : isBlockedAgent (r.userAgent.getD []) = true :=
    List.any_eq_true.mpr ⟨a, ha, hmatch⟩
  have hb : blockIDM r = some ⟨403, Reason.agent⟩ := by
    simp [blockIDM, hblocked]
  simp [handleStream, hb]

/-- A request carrying a token and an IDM-style user agent. -/
def reqIdmAgent : Request :=
  ⟨byteStr "GET", some (byteStr "Mozilla/5.0 idm/6.41"),
   some (byteStr "http://localhost:5173/"), none, none, some (byteStr "tok"),
   some (byteStr "http://media.example/x.m3u8"), byteStr "http", byteStr "localhost:3000"⟩

theorem stream_denylisted_agent_403_witness :
    byteStr "IDM" ∈ blockedAgents ∧
    includesB (toLowerB (reqIdmAgent.userAgent.getD [])) (toLowerB (byteStr "IDM")) = true ∧
    ((handleStream upZero reqIdmAgent).1.status = 403 ∧
     (handleStream upZero reqIdmAgent).1.reason = some Reason.agent ∧
     (handleStream upZero reqIdmAgent).2 = []) :=
  ⟨by decide, by decide,
   stream_denylisted_agent_403 upZero reqIdmAgent (byteStr "IDM") (by decide) (by decide)⟩

/-- C6: a HEAD request to `/api/stream` is answered 405 whenever it reaches the
method check — i.e. even with a token and clean headers (non-denylisted agent,
referer present). -/
theorem stream_head_405 (up : FetchArgs → UpstreamResponse) (r : Request)
    (hm : r.method = byteStr "HEAD")
    (hua : isBlockedAgent (r.userAgent.getD []) = false)
    (href : r.referer.getD [] ≠ []) :
    (handleStream up r).1.status = 405 ∧
    (handleStream up r).1.reason = some Reason.method := by
  have hb : blockIDM r = some ⟨405, Reason.method⟩ := by
    simp [blockIDM, hua, href, hm]
  simp [handleStream, hb]

/-- A HEAD request with a token and clean headers. -/
def reqHeadClean : Request :=
  ⟨byteStr "HEAD", some (byteStr "Mozilla/5.0"), some (byteStr "http://localhost:5173/"),
   none, none, some (byteStr "tok"), some (byteStr "http://media.example/x.m3u8"),
   byteStr "http", byteStr "localhost:3000"⟩

theorem stream_head_405_witness :
    reqHeadClean.method = byteStr "HEAD" ∧
    isBlockedAgent (reqHeadClean.userAgent.getD []) = false ∧
    reqHeadClean.referer.getD [] ≠ [] ∧
    ((handleStream upZero reqHeadClean).1.status = 405 ∧
     (handleStream upZero reqHeadClean).1.reason = some Reason.method) :=
  ⟨rfl, by decide, by decide,
   stream_head_405 upZero reqHeadClean rfl (by decide) (by decide)⟩

/-! ### C5: the referer check -/

/-- A GET request whose Referer is present but points at a foreign origin. -/
def reqEvilReferer : Request :=
  ⟨byteStr "GET", some (byteStr "Mozilla/5.0"), some (byteStr "http://evil.example/page"),
   none, none, some (byteStr "tok"), some (byteStr "http://media.example/x.m3u8"),
   byteStr "http", byteStr "localhost:3000"⟩

/-- C5 counterexample: a request whose Referer is present but matches no
front-end origin of the gateway is NOT denied — the middleware lets it
through, contradicting the claimed allow-list validation. -/
theorem referer_allowlist_counterexample :
    reqEvilReferer.referer = some (byteStr "http://evil.example/page") ∧
    blockIDM reqEvilReferer = none := by
  constructor
  · rfl
  · decide

/-- C5 amended: for a request with a clean user agent, the classifier denies
with the referer reason exactly when the Referer header is absent (or empty);
the value of a present Referer is never validated, and there is no
Accept-header exception. -/
theorem referer_presence_only (r : Request)
    (hua : isBlockedAgent (r.userAgent.getD []) = false) :
    blockIDM r = some ⟨403, Reason.referer⟩ ↔ r.referer.getD [] = [] := by
  constructor
  · intro h
    by_contra href
    simp only [blockIDM, hua, Bool.false_eq_true, if_false, if_neg href] at h
    split at h
    · simp at h
    · split at h
      · split at h
        · cases h
        · simp at h
      · cases h
  · intro h
    simp [blockIDM, hua, h]

/-- A GET request with no Referer header at all (and a token). -/
def reqNoReferer : Request :=
  ⟨byteStr "GET", some (byteStr "Mozilla/5.0"), none, none, none,
   some (byteStr "tok"), some (byteStr "http://media.example/x.m3u8"),
   byteStr "http", byteStr "localhost:3000"⟩

theorem referer_presence_only_witness :
    isBlockedAgent (reqNoReferer.userAgent.getD []) = false ∧
    blockIDM reqNoReferer = some ⟨403, Reason.referer⟩ :=
  ⟨by decide, (referer_presence_only reqNoReferer (by decide)).mpr rfl⟩

/-! ### C2: the ordered pipeline -/

/-- A GET request with a clean user agent but neither Referer nor token. -/
def reqNoRefNoToken : Request :=
  ⟨byteStr "GET", some (byteStr "Mozilla/5.0"), none, none, none, none,
   some (byteStr "http://media.example/x.m3u8"), byteStr "http", byteStr "localhost:3000"⟩

/-- C2 counterexample: for a request with a clean user agent, no session/token
and no Referer, the claimed order (session before referer) predicts a denial
with the session reason; the gateway actually denies with the referer reason —
the credential check runs in the route handler, after all middleware checks. -/
theorem pipeline_order_counterexample :
    reqNoRefNoToken.token = none ∧ reqNoRefNoToken.referer = none ∧
    (handleStream upZero reqNoRefNoToken).1.reason = some Reason.referer ∧
    Reason.referer ≠ Reason.missingTokenOrUrl := by decide

/-- Modelled from the spec (§4.2, amended order): check 1, the user-agent
denylist. -/
def agentCheck (r : Request) : Option Denial :=
  if isBlockedAgent (r.userAgent.getD []) then some ⟨403, Reason.agent⟩ else none

/-- Modelled from the spec (§4.2, amended order): check 2, referer presence. -/
def refererCheck (r : Request) : Option Denial :=
  if r.referer.getD [] = [] then some ⟨403, Reason.referer⟩ else none

/-- Modelled from the spec (§4.2, amended order): check 3, the HEAD-method
restriction. -/
def methodCheck (r : Request) : Option Denial :=
  if r.method = byteStr "HEAD" then some ⟨405, Reason.method⟩ else none

/-- Modelled from the spec (§4.2, amended order): check 4, fetch metadata. -/
def fetchDestCheck (r : Request) : Option Denial :=
  if r.secFetchDest.getD [] ≠ [] ∧ r.secFetchDest.getD [] ∉ validDestinations then
    some ⟨403, Reason.fetchDest⟩
  else none

/-- Modelled from the spec (§4.2, amended order): check 5, presence of the
`token` and `url` query parameters (the code's stand-in for the session
check). -/
def credentialCheck (r : Request) : Option Denial :=
  if r.token.getD [] = [] ∨ r.url.getD [] = [] then
    some ⟨403, Reason.missingTokenOrUrl⟩
  else none

/-- The pipeline order actually implemented by the gateway. -/
def orderedChecks : List (Request → Option Denial) :=
  [agentCheck, refererCheck, methodCheck, fetchDestCheck, credentialCheck]

/-- The first failing check of the pipeline, in order. -/
def firstFailing (r : Request) : Option Denial :=
  orderedChecks.findSome? (fun c => c r)

theorem get_ne_head : byteStr "GET" ≠ byteStr "HEAD" := by decide

/-- The route handler's response carries no denial reason once the credential
check has passed. -/
theorem handleUrl_reason_none (up : FetchArgs → UpstreamResponse) (r : Request)
    (token : Bytes) (o : Option Bytes) : (handleUrl up r token o).1.reason = none := by
  cases o with
  | none => rfl
  | some u =>
    simp only [handleUrl]
    split
    · split
      · rfl
      · rfl
    · split
      · rfl
      · rfl

theorem streamRoute_reason_none (up : FetchArgs → UpstreamResponse) (r : Request)
    (hC : ¬(r.token.getD [] = [] ∨ r.url.getD [] = [])) :
    (streamRoute up r).1.reason = none := by
  simp only [streamRoute, if_neg hC]
  exact handleUrl_reason_none up r _ _

/-- C2 amended: the gateway evaluates its checks as an ordered pipeline —
(1) user-agent denylist, (2) referer presence, (3) HEAD-method restriction,
(4) fetch metadata, (5) token/url presence (in the route handler) — and the
response's denial reason and status are those of the first failing check in
that order (no reason when every check passes). -/
theorem pipeline_first_failing (up : FetchArgs → UpstreamResponse) (r : Request)
    (hm : r.method = byteStr "GET" ∨ r.method = byteStr "HEAD") :
    (handleStream up r).1.reason = Option.map Denial.reason (firstFailing r) ∧
    (∀ d, firstFailing r = some d → (handleStream up r).1.status = d.status) := by
  by_cases hA : isBlockedAgent (r.userAgent.getD []) = true
  · have hb : blockIDM r = some ⟨403, Reason.agent⟩ := by simp [blockIDM, hA]
    constructor
    · simp [handleStream, hb, firstFailing, orderedChecks, List.findSome?, agentCheck, hA]
    · intro d hd
      simp [firstFailing, orderedChecks, List.findSome?, agentCheck, hA] at hd
      simp [handleStream, hb, ← hd]
  · have hA' : isBlockedAgent (r.userAgent.getD []) = false := by
      simpa using hA
    by_cases hR : r.referer.getD [] = []
    · have hb : blockIDM r = some ⟨403, Reason.referer⟩ := by simp [blockIDM, hA', hR]
      constructor
      · simp [handleStream, hb, firstFailing, orderedChecks, List.findSome?,
          agentCheck, refererCheck, hA', hR]
      · intro d hd
        simp [firstFailing, orderedChecks, List.findSome?, agentCheck, refererCheck,
          hA', hR] at hd
        simp [handleStream, hb, ← hd]
    · by_cases hM : r.method = byteStr "HEAD"
      · have hb : blockIDM r = some ⟨405, Reason.method⟩ := by
          simp [blockIDM, hA', hR, hM]
        constructor
        · simp [handleStream, hb, firstFailing, orderedChecks, List.findSome?,
            agentCheck, refererCheck, methodCheck, hA', hR, hM]
        · intro d hd
          simp [firstFailing, orderedChecks, List.findSome?, agentCheck, refererCheck,
            methodCheck, hA', hR, hM] at hd
          simp [handleStream, hb, ← hd]
      · have hG : r.method = byteStr "GET" := hm.resolve_right hM
        by_cases hF : r.secFetchDest.getD [] ≠ [] ∧ r.secFetchDest.getD [] ∉ validDestinations
        · have hb : blockIDM r = some ⟨403, Reason.fetchDest⟩ := by
            simp [blockIDM, hA', hR, hM, hF.1, hF.2]
          constructor
          · simp [handleStream, hb, firstFailing, orderedChecks, List.findSome?,
              agentCheck, refererCheck, methodCheck, fetchDestCheck, hA', hR, hM, hF]
          · intro d hd
            simp [firstFailing, orderedChecks, List.findSome?, agentCheck, refererCheck,
              methodCheck, fetchDestCheck, hA', hR, hM, hF] at hd
            simp [handleStream, hb, ← hd]
        · have hsfd : r.secFetchDest.getD [] = [] ∨
              r.secFetchDest.getD [] ∈ validDestinations := by
            by_cases hx : r.secFetchDest.getD [] = []
            · exact Or.inl hx
            · by_contra hv
              push_neg at hv
              exact hF ⟨hx, hv.2⟩
          have hb : blockIDM r = none := blockIDM_pass r hA' hR hM hsfd
          by_cases hC : r.token.getD [] = [] ∨ r.url.getD [] = []
          · have hroute : streamRoute up r = (mkDeny 403 Reason.missingTokenOrUrl, []) := by
              simp only [streamRoute]
              rw [if_pos hC]
            constructor
            · simp [handleStream, hb, hG, hroute, firstFailing, orderedChecks,
                List.findSome?, agentCheck, refererCheck, methodCheck, fetchDestCheck,
                credentialCheck, hA', hR, hM, hF, hC, mkDeny, get_ne_head]
            · intro d hd
              simp [firstFailing, orderedChecks, List.findSome?, agentCheck, refererCheck,
                methodCheck, fetchDestCheck, credentialCheck, hA', hR, hM, hF, hC] at hd
              simp [handleStream, hb, hG, hroute, mkDeny, ← hd]
          · constructor
            · simp [handleStream, hb, hG, streamRoute_reason_none up r hC, firstFailing,
                orderedChecks, List.findSome?, agentCheck, refererCheck, methodCheck,
                fetchDestCheck, credentialCheck, hA', hR, hM, hF, hC, get_ne_head]
            · intro d hd
              simp [firstFailing, orderedChecks, List.findSome?, agentCheck, refererCheck,
                methodCheck, fetchDestCheck, credentialCheck, hA', hR, hM, hF, hC] at hd

/-- A HEAD request with clean headers and a token, for the pipeline witness. -/
def reqPipelineHead : Request :=
  ⟨byteStr "HEAD", some (byteStr "Mozilla/5.0"), some (byteStr "http://localhost:5173/"),
   none, none, some (byteStr "tok"), some (byteStr "http://media.example/x.m3u8"),
   byteStr "http", byteStr "localhost:3000"⟩

theorem pipeline_first_failing_witness :
    (reqPipelineHead.method = byteStr "GET" ∨ reqPipelineHead.method = byteStr "HEAD") ∧
    (handleStream upZero reqPipelineHead).1.reason =
      Option.map Denial.reason (firstFailing reqPipelineHead) :=
  ⟨Or.inr rfl, (pipeline_first_failing upZero reqPipelineHead (Or.inr rfl)).1⟩

/-! ### C3: the token's value -/

/-- Replace a request's `token` query parameter. -/
def withToken (r : Request) (t : Bytes) : Request :=
  ⟨r.method, r.userAgent, r.referer, r.secFetchDest, r.range, some t, r.url,
   r.protocol, r.host⟩

/-- An upstream origin serving a one-line manifest. -/
def upManifest : FetchArgs → UpstreamResponse :=
  fun _ => ⟨200, none, none, none, none, byteStr "seg0.ts"⟩

/-- A clean GET manifest request, before the token is filled in. -/
def reqManifestBase : Request :=
  ⟨byteStr "GET", some (byteStr "Mozilla/5.0"), some (byteStr "http://localhost:5173/"),
   none, none, none, some (byteStr "http://media.example/x.m3u8"),
   byteStr "http", byteStr "localhost:3000"⟩

/-- C3 counterexample: two requests identical except for the non-empty token
value receive different response bodies — the token value is echoed into every
rewritten manifest URI, so the observable response behavior is NOT identical. -/
theorem token_value_observable_counterexample :
    (handleStream upManifest (withToken reqManifestBase (byteStr "AAA"))).1.body ≠
    (handleStream upManifest (withToken reqManifestBase (byteStr "BBB"))).1.body := by
  decide

/-- The route handler's status, reason and upstream fetches do not depend on
the (non-empty) token value. -/
theorem streamRoute_token_indep (up : FetchArgs → UpstreamResponse) (r : Request)
    (t1 t2 : Bytes) (h1 : t1 ≠ []) (h2 : t2 ≠ []) :
    (streamRoute up (withToken r t1)).1.status = (streamRoute up (withToken r t2)).1.status ∧
    (streamRoute up (withToken r t1)).1.reason = (streamRoute up (withToken r t2)).1.reason ∧
    (streamRoute up (withToken r t1)).2 = (streamRoute up (withToken r t2)).2 := by
  have hcore : ∀ o : Option Bytes,
      (handleUrl up (withToken r t1) t1 o).1.status =
        (handleUrl up (withToken r t2) t2 o).1.status ∧
      (handleUrl up (withToken r t1) t1 o).1.reason =
        (handleUrl up (withToken r t2) t2 o).1.reason ∧
      (handleUrl up (withToken r t1) t1 o).2 = (handleUrl up (withToken r t2) t2 o).2 := by
    intro o
    cases o with
    | none => exact ⟨rfl, rfl, rfl⟩
    | some u =>
      simp only [handleUrl, withToken]
      by_cases hinc : includesB u (byteStr ".m3u8") = true
      · rw [if_pos hinc, if_pos hinc]
        by_cases hst : 200 ≤ (up ⟨u, none, none⟩).status ∧ (up ⟨u, none, none⟩).status < 300
        · rw [if_pos hst, if_pos hst]
          exact ⟨rfl, rfl, rfl⟩
        · rw [if_neg hst, if_neg hst]
          exact ⟨rfl, rfl, rfl⟩
      · rw [if_neg hinc, if_neg hinc]
        exact ⟨rfl, rfl, rfl⟩
  simp only [streamRoute, withToken, Option.getD_some]
  by_cases hurl : r.url.getD [] = []
  · rw [if_pos (Or.inr hurl), if_pos (Or.inr hurl)]
    exact ⟨rfl, rfl, rfl⟩
  · have g1 : ¬(t1 = [] ∨ r.url.getD [] = []) := by simp [h1, hurl]
    have g2 : ¬(t2 = [] ∨ r.url.getD [] = []) := by simp [h2, hurl]
    rw [if_neg g1, if_neg g2]
    have := hcore (decodeURIComponent (r.url.getD []))
    simpa [withToken] using this

/-- C3 amended: the gateway never validates the token's value — any two
requests identical except for the (non-empty) token value receive the same
status and denial reason and cause the same upstream fetches; the response
body alone may differ, because a rewritten manifest echoes the token value
into its gateway URLs. -/
theorem token_value_never_validated (up : FetchArgs → UpstreamResponse) (r : Request)
    (t1 t2 : Bytes) (h1 : t1 ≠ []) (h2 : t2 ≠ []) :
    (handleStream up (withToken r t1)).1.status = (handleStream up (withToken r t2)).1.status ∧
    (handleStream up (withToken r t1)).1.reason = (handleStream up (withToken r t2)).1.reason ∧
    (handleStream up (withToken r t1)).2 = (handleStream up (withToken r t2)).2 := by
  have hbeq : blockIDM (withToken r t1) = blockIDM (withToken r t2) := rfl
  cases hb : blockIDM (withToken r t1) with
  | some d =>
    rw [hbeq] at hb
    simp [handleStream, hbeq.symm ▸ hb, hb]
  | none =>
    rw [hbeq] at hb
    have hmeq : (withToken r t1).method = (withToken r t2).method := rfl
    simp only [handleStream, hbeq.symm ▸ hb, hb]
    by_cases hg : r.method = byteStr "GET"
    · have hg1 : (withToken r t1).method = byteStr "GET" := hg
      have hg2 : (withToken r t2).method = byteStr "GET" := hg
      rw [if_pos hg1, if_pos hg2]
      exact streamRoute_token_indep up r t1 t2 h1 h2
    · have hg1 : ¬((withToken r t1).method = byteStr "GET") := hg
      have hg2 : ¬((withToken r t2).method = byteStr "GET") := hg
      rw [if_neg hg1, if_neg hg2]
      exact ⟨rfl, rfl, rfl⟩

theorem token_value_never_validated_witness :
    byteStr "AAA" ≠ [] ∧ byteStr "BBB" ≠ [] ∧
    ((handleStream upManifest (withToken reqManifestBase (byteStr "AAA"))).1.status =
       (handleStream upManifest (withToken reqManifestBase (byteStr "BBB"))).1.status ∧
     (handleStream upManifest (withToken reqManifestBase (byteStr "AAA"))).1.reason =
       (handleStream upManifest (withToken reqManifestBase (byteStr "BBB"))).1.reason ∧
     (handleStream upManifest (withToken reqManifestBase (byteStr "AAA"))).2 =
       (handleStream upManifest (withToken reqManifestBase (byteStr "BBB"))).2) :=
  ⟨by decide, by decide,
   token_value_never_validated upManifest reqManifestBase (byteStr "AAA") (byteStr "BBB")
     (by decide) (by decide)⟩

/-! ### C8, C9: the manifest rewriter -/

/-- If a byte string starts with `b :: ps`, its head is `b`. -/
theorem startsWithB_cons_ex (b : Nat) (ps line : Bytes)
    (h : startsWithB line (b :: ps) = true) : ∃ t, line = b :: t := by
  cases line with
  | nil => simp [startsWithB, isPrefixB] at h
  | cons c l =>
    simp only [startsWithB, isPrefixB, Bool.and_eq_true, beq_iff_eq] at h
    exact ⟨l, by rw [h.1]⟩

/-- C8: the rewriter's treatment of one manifest line — every line starting
with `#` is emitted byte-for-byte unchanged, and any line the rewriter alters
is non-blank and does not start with `#`. -/
theorem manifest_directives_unchanged (protocol host token base line : Bytes) :
    (startsWithB line (byteStr "#") = true →
      rewriteLine protocol host token base line = line) ∧
    (rewriteLine protocol host token base line ≠ line →
      trimB line ≠ [] ∧ startsWithB line (byteStr "#") = false) := by
  have h35 : byteStr "#" = 35 :: [] := by rfl
  constructor
  · intro h
    obtain ⟨rest, hline⟩ := startsWithB_cons_ex 35 [] line (h35 ▸ h)
    subst hline
    obtain ⟨t, ht⟩ := trimB_cons_shape 35 (by decide) rest
    unfold rewriteLine
    rw [if_neg]
    rintro ⟨-, hsw⟩
    rw [ht, h35] at hsw
    simp [startsWithB, isPrefixB] at hsw
  · intro hne
    have hguard : trimB line ≠ [] ∧ startsWithB (trimB line) (byteStr "#") = false := by
      by_contra hg
      apply hne
      unfold rewriteLine
      rw [if_neg hg]
    refine ⟨hguard.1, ?_⟩
    by_contra hsw
    have hsw' : startsWithB line (byteStr "#") = true := by
      revert hsw
      cases startsWithB line (byteStr "#") <;> simp
    obtain ⟨rest, hline⟩ := startsWithB_cons_ex 35 [] line (h35 ▸ hsw')
    subst hline
    obtain ⟨t, ht⟩ := trimB_cons_shape 35 (by decide) rest
    have : startsWithB (trimB (35 :: rest)) (byteStr "#") = true := by
      rw [ht, h35]
      simp [startsWithB, isPrefixB]
    rw [hguard.2] at this
    cases this

theorem manifest_directives_unchanged_witness :
    startsWithB (byteStr "#EXTINF:4.0,") (byteStr "#") = true ∧
    rewriteLine (byteStr "http") (byteStr "localhost:3000") (byteStr "tok")
        (byteStr "http://media.example/") (byteStr "#EXTINF:4.0,") =
      byteStr "#EXTINF:4.0," :=
  ⟨by decide,
   (manifest_directives_unchanged (byteStr "http") (byteStr "localhost:3000")
      (byteStr "tok") (byteStr "http://media.example/") (byteStr "#EXTINF:4.0,")).1
     (by decide)⟩

/-- C9: a URI line that is already absolute (starts with `http`) is rewritten
to the gateway URL whose `url` query parameter is the URL-encoded original
line, and decoding that parameter — as the streaming endpoint does on the
subsequent fetch — recovers exactly the original upstream absolute URL. -/
theorem absolute_url_roundtrip (protocol host token base line : Bytes)
    (hhttp : startsWithB line (byteStr "http") = true)
    (hbytes : ∀ b ∈ line, b < 256) :
    rewriteLine protocol host token base line =
      protocol ++ byteStr "://" ++ host ++ byteStr "/api/stream?token=" ++ token ++
        byteStr "&url=" ++ encodeURIComponent line ∧
    decodeURIComponent (encodeURIComponent line) = some line := by
  have hh : byteStr "http" = 104 :: byteStr "ttp" := by rfl
  obtain ⟨t, hline⟩ := startsWithB_cons_ex 104 (byteStr "ttp") line (hh ▸ hhttp)
  constructor
  · obtain ⟨tt, htt⟩ := trimB_cons_shape 104 (by decide) t
    unfold rewriteLine
    rw [if_pos, hhttp]
    · simp
    · constructor
      · rw [hline, htt]
        simp
      · rw [hline, htt]
        simp [startsWithB, isPrefixB]
  · exact decode_encode line hbytes

theorem absolute_url_roundtrip_witness :
    startsWithB (byteStr "http://media.example/seg0.ts") (byteStr "http") = true ∧
    (∀ b ∈ byteStr "http://media.example/seg0.ts", b < 256) ∧
    decodeURIComponent (encodeURIComponent (byteStr "http://media.example/seg0.ts")) =
      some (byteStr "http://media.example/seg0.ts") :=
  ⟨by decide, by decide,
   (absolute_url_roundtrip (byteStr "http") (byteStr "localhost:3000") (byteStr "tok")
      (byteStr "http://media.example/") (byteStr "http://media.example/seg0.ts")
      (by decide) (by decide)).2⟩

/-! ### C10: manifest trigger and range-aware proxy -/

/-- An upstream origin serving an MP4 file. -/
def upMp4 : FetchArgs → UpstreamResponse :=
  fun _ => ⟨200, some (byteStr "video/mp4"), some (byteStr "4"), none, none, byteStr "DATA"⟩

/-- A clean ranged GET request for a file whose path does NOT end in `.m3u8`
but contains it (`/v.m3u8.mp4`). -/
def reqDoubleExt : Request :=
  ⟨byteStr "GET", some (byteStr "Mozilla/5.0"), some (byteStr "http://localhost:5173/"),
   none, some (byteStr "bytes=0-99"), some (byteStr "tok"),
   some (byteStr "http://media.example/v.m3u8.mp4"), byteStr "http", byteStr "localhost:3000"⟩

/-- C10 counterexample: for an upstream URL whose path does not END with
`.m3u8` but contains it, the gateway still performs the manifest rewrite
(the code tests `includes('.m3u8')`, not an `.m3u8` suffix): it answers with
the HLS content type and fetches upstream without forwarding the client's
Range header. -/
theorem manifest_trigger_counterexample :
    endsWithB (byteStr "http://media.example/v.m3u8.mp4") (byteStr ".m3u8") = false ∧
    reqDoubleExt.range = some (byteStr "bytes=0-99") ∧
    (handleStream upMp4 reqDoubleExt).1.contentType =
      some (byteStr "application/vnd.apple.mpegurl") ∧
    (handleStream upMp4 reqDoubleExt).2 =
      [⟨byteStr "http://media.example/v.m3u8.mp4", none, none⟩] := by
  decide

/-- C10 amended: manifest rewriting is triggered exactly when the decoded
upstream URL CONTAINS `.m3u8`; for a decoded upstream URL not containing it,
the proxy makes a single upstream fetch forwarding the inbound Range header
verbatim (with the impersonated browser user agent), and on an upstream 2xx
copies Content-Type, Content-Length, Content-Range and Accept-Ranges verbatim,
mirrors the upstream status exactly, and streams the upstream body. -/
theorem proxy_non_manifest (up : FetchArgs → UpstreamResponse) (r : Request) (u : Bytes)
    (hm : r.method = byteStr "GET")
    (hb : blockIDM r = none)
    (ht : r.token.getD [] ≠ [])
    (hu : r.url.getD [] ≠ [])
    (hd : decodeURIComponent (r.url.getD []) = some u) :
    (includesB u (byteStr ".m3u8") = true →
      (handleStream up r).2 = [⟨u, none, none⟩] ∧
      (200 ≤ (up ⟨u, none, none⟩).status ∧ (up ⟨u, none, none⟩).status < 300 →
        (handleStream up r).1.status = 200 ∧
        (handleStream up r).1.contentType = some (byteStr "application/vnd.apple.mpegurl") ∧
        (handleStream up r).1.body =
          some (rewriteManifest r.protocol r.host (r.token.getD []) u
            (up ⟨u, none, none⟩).body))) ∧
    (includesB u (byteStr ".m3u8") = false →
      (handleStream up r).2 = [⟨u, r.range, some browserUA⟩] ∧
      (200 ≤ (up ⟨u, r.range, some browserUA⟩).status ∧
          (up ⟨u, r.range, some browserUA⟩).status < 300 →
        (handleStream up r).1.status = (up ⟨u, r.range, some browserUA⟩).status ∧
        (handleStream up r).1.contentType = (up ⟨u, r.range, some browserUA⟩).contentType ∧
        (handleStream up r).1.contentLength =
          (up ⟨u, r.range, some browserUA⟩).contentLength ∧
        (handleStream up r).1.contentRange = (up ⟨u, r.range, some browserUA⟩).contentRange ∧
        (handleStream up r).1.acceptRanges = (up ⟨u, r.range, some browserUA⟩).acceptRanges ∧
        (handleStream up r).1.body = some (up ⟨u, r.range, some browserUA⟩).body)) := by
  have hC : ¬(r.token.getD [] = [] ∨ r.url.getD [] = []) := by
    simp [ht, hu]
  have hroute : handleStream up r = handleUrl up r (r.token.getD []) (some u) := by
    simp only [handleStream, hb, hm, if_pos rfl, streamRoute, if_neg hC, hd, if_true]
  rw [hroute]
  simp only [handleUrl]
  constructor
  · intro hinc
    rw [if_pos hinc]
    by_cases hst : 200 ≤ (up ⟨u, none, none⟩).status ∧ (up ⟨u, none, none⟩).status < 300
    · rw [if_pos hst]
      exact ⟨rfl, fun _ => ⟨rfl, rfl, rfl⟩⟩
    · rw [if_neg hst]
      exact ⟨rfl, fun hc => absurd hc hst⟩
  · intro hinc
    rw [if_neg (by simp [hinc])]
    by_cases hst : 200 ≤ (up ⟨u, r.range, some browserUA⟩).status ∧
        (up ⟨u, r.range, some browserUA⟩).status < 300
    · rw [if_pos hst]
      exact ⟨rfl, fun _ => ⟨rfl, rfl, rfl, rfl, rfl, rfl⟩⟩
    · rw [if_neg hst]
      exact ⟨rfl, fun hc => absurd hc hst⟩

/-- An upstream origin answering a range request with 206. -/
def upRange : FetchArgs → UpstreamResponse :=
  fun _ => ⟨206, some (byteStr "video/mp4"), some (byteStr "100"),
    some (byteStr "bytes 100-199/1000"), some (byteStr "bytes"), byteStr "MEDIA"⟩

/-- A clean ranged GET request for a plain MP4 file. -/
def reqMp4 : Request :=
  ⟨byteStr "GET", some (byteStr "Mozilla/5.0"), some (byteStr "http://localhost:5173/"),
   none, some (byteStr "bytes=100-199"), some (byteStr "tok"),
   some (byteStr "http://media.example/v.mp4"), byteStr "http", byteStr "localhost:3000"⟩

theorem proxy_non_manifest_witness :
    reqMp4.method = byteStr "GET" ∧ blockIDM reqMp4 = none ∧
    reqMp4.token.getD [] ≠ [] ∧ reqMp4.url.getD [] ≠ [] ∧
    decodeURIComponent (reqMp4.url.getD []) = some (byteStr "http://media.example/v.mp4") ∧
    includesB (byteStr "http://media.example/v.mp4") (byteStr ".m3u8") = false ∧
    (handleStream upRange reqMp4).2 =
      [⟨byteStr "http://media.example/v.mp4", reqMp4.range, some browserUA⟩] :=
  ⟨rfl, by decide, by decide, by decide, by decide, by decide,
   ((proxy_non_manifest upRange reqMp4 (byteStr "http://media.example/v.mp4") rfl
       (by decide) (by decide) (by decide) (by decide)).2 (by decide)).1⟩

/-! ### C7: the Connection-Rate Guard (spec-modelled)

No rate-limiting code exists under `src/`; the Connection-Rate Guard is
described only by spec §4.3.  The definitions below are therefore modelled
from the spec's words rather than translated from source. -/

/-- Modelled from the spec: the sliding window of the Connection-Rate Guard,
"a fixed window (10 s observed)" (§4.3); in milliseconds.  The guard itself is
missing from the source under `src/`. -/
def rateWindowMs : Nat := 10000

/-- Modelled from the spec: the connection-count threshold, "a threshold
(≈20)" (§4.3).  The guard itself is missing from the source under `src/`. -/
def rateThreshold : Nat := 20

/-- Modelled from the spec: one call of the guard for a client address whose
recent-connection timestamps are `ts` — "drop timestamps older than the
window, append the current instant, and compare the resulting count to a
threshold; exceeding the threshold ⇒ DENY with a 429-equivalent status"
(§4.3).  Returns the decision (`none` = admit, `some 429` = deny) and the
updated timestamp list. -/
def guardStep (now : Nat) (ts : List Nat) : Option Nat × List Nat :=
  let pruned := ts.filter (fun t => now < t + rateWindowMs) ++ [now]
  (if rateThreshold < pruned.length then some 429 else none, pruned)

/-- Run the guard over a sequence of request instants, starting from state
`st`; returns the decision for each request in order. -/
def runGuardAux (st : List Nat) : List Nat → List (Option Nat)
  | [] => []
  | now :: rest => (guardStep now st).1 :: runGuardAux (guardStep now st).2 rest

/-- Run the guard over a client's request instants from an empty window. -/
def runGuard (times : List Nat) : List (Option Nat) := runGuardAux [] times

/-- When every stored timestamp is still within the window, the guard prunes
nothing: the state grows by exactly the current instant. -/
theorem guardStep_no_prune (now : Nat) (st : List Nat)
    (h : ∀ t ∈ st, now < t + rateWindowMs) :
    guardStep now st =
      (if rateThreshold < st.length + 1 then some 429 else none, st ++ [now]) := by
  unfold guardStep
  have hf : st.filter (fun t => now < t + rateWindowMs) = st :=
    List.filter_eq_self.mpr (fun a ha => by simp [h a ha])
  rw [hf]
  simp

/-- Characterization of the guard's decisions when all instants (stored and
pending) lie within one window of each other: no pruning ever happens, so the
`i`-th pending request sees `st.length + i + 1` stored connections. -/
theorem runGuardAux_nofilter (pending : List Nat) : ∀ st : List Nat,
    (∀ now ∈ pending, ∀ t ∈ st ++ pending, now < t + rateWindowMs) →
    runGuardAux st pending =
      (List.range pending.length).map
        (fun i => if rateThreshold < st.length + i + 1 then some 429 else none) := by
  induction pending with
  | nil =>
    intro st _
    rfl
  | cons now rest ih =>
    intro st H
    have hnowst : ∀ t ∈ st, now < t + rateWindowMs := fun t htm =>
      H now (List.mem_cons_self now rest) t (List.mem_append_left _ htm)
    have H' : ∀ n ∈ rest, ∀ t ∈ (st ++ [now]) ++ rest, n < t + rateWindowMs := by
      intro n hn t htm
      apply H n (List.mem_cons_of_mem now hn)
      simp only [List.mem_append, List.mem_cons, List.mem_singleton,
        List.not_mem_nil, or_false] at htm ⊢
      tauto
    simp only [runGuardAux, guardStep_no_prune now st hnowst]
    rw [ih (st ++ [now]) H']
    simp only [List.length_cons, List.range_succ_eq_map, List.map_cons, List.map_map]
    congr 1
    apply List.map_congr_left
    intro i _
    simp only [Function.comp_apply, List.length_append, List.length_singleton]
    exact if_congr (by omega) rfl rfl

/-- C7: the rate guard, modelled from spec §4.3, keeps per-address timestamps
pruned to a 10-second window and admits a request only while the count stays
at or below 20: for 21 requests within one window the 21st is denied with 429,
and for 19 requests within one window all 19 are admitted. -/
theorem rate_guard_thresholds (times : List Nat)
    (hwin : ∀ x ∈ times, ∀ y ∈ times, x < y + rateWindowMs) :
    (times.length = 21 → (runGuard times)[20]? = some (some 429)) ∧
    (times.length = 19 → ∀ d ∈ runGuard times, d = none) := by
  have hchar : runGuard times =
      (List.range times.length).map
        (fun i => if rateThreshold < i + 1 then some 429 else none) := by
    have := runGuardAux_nofilter times [] (by simpa using hwin)
    simpa [runGuard] using this
  constructor
  · intro h21
    rw [hchar, h21]
    decide
  · intro h19 d hd
    rw [hchar, h19] at hd
    simp only [List.mem_map, List.mem_range] at hd
    obtain ⟨i, hi, hf⟩ := hd
    rw [if_neg (by simp [rateThreshold]; omega)] at hf
    exact hf.symm

theorem rate_guard_thresholds_witness :
    (∀ x ∈ List.replicate 21 0, ∀ y ∈ List.replicate 21 0, x < y + rateWindowMs) ∧
    (runGuard (List.replicate 21 0))[20]? = some (some 429) :=
  ⟨by decide,
   (rate_guard_thresholds (List.replicate 21 0) (by decide)).1 (by decide)⟩
